import Mathlib

/-!
Shallow embedding of the `audiobookself_auto_purge` cleanup scripts
(`abs-cleanup-finished-episodes-v2.py`, `-v3.py`, `-v4.py`).

The scripts query an Audiobookshelf server over HTTP.  We model the server
as a value of type `Server`: the list of libraries the `/api/libraries`
endpoint reports, together with an association list giving, per library
item id, the full item details the `/api/items/:id?expanded=1` endpoint
returns.  An id absent from `details` models the detail request raising an
exception (which the scripts catch and skip).

JSON-level conventions:
* optional string fields (`episodeId`, `libraryItemId`, `id`, titles) are
  `Option String`; Python truthiness (`if progress.get('episodeId'):`)
  treats both absence and the empty string as false, captured by `otruthy`;
* `addedAt` timestamps are `Option Nat` (milliseconds); Python truthiness
  (`if not added_at_ms:`) treats both `None` and `0` as falsy;
* times and the minimum age are modelled in integer milliseconds: the
  scripts compare `datetime.now() - datetime.fromtimestamp(ms / 1000)`
  against a `timedelta`, which is exactly an integer comparison on
  millisecond counts.

Deletion side effects are reified: instead of performing HTTP DELETE calls
the embedding returns the list of `Request` values the run issues, and a
`failSet : List Request` parameter plays the role of the failure oracle
(a request in `failSet` raises `HTTPError` when attempted, matching the
per-item `try` / `except` in the deletion loops).
-/

/-- Python truthiness of an optional string JSON field: `None` and `""` are
falsy, any other string is truthy. -/
def otruthy : Option String → Bool
  | none => false
  | some s => s != ""

/-- One entry of the `mediaProgress` array returned by `/api/me`. -/
structure Progress where
  isFinished : Bool
  episodeId : Option String
  libraryItemId : Option String
deriving DecidableEq, Repr

/-- Python `set.add`: insert a string into a duplicate-free list if absent. -/
def setInsert (x : String) (s : List String) : List String :=
  if x ∈ s then s else x :: s

/-- Embedding of v4 / v3 `get_finished_media`: split the user's media
progress into finished podcast-episode ids and finished audiobook
library-item ids.  An entry with a truthy `episodeId` goes to the first
set only; an entry with no (or empty) `episodeId` but a truthy
`libraryItemId` goes to the second. -/
def get_finished_media : List Progress → List String × List String
  | [] => ([], [])
  | p :: rest =>
    let r := get_finished_media rest
    if p.isFinished then
      if otruthy p.episodeId then (setInsert (p.episodeId.getD "") r.1, r.2)
      else if otruthy p.libraryItemId then (r.1, setInsert (p.libraryItemId.getD "") r.2)
      else r
    else r

/-- Embedding of v2 `get_finished_episode_ids`: episode ids of progress
entries that are finished and carry a truthy `episodeId`. -/
def get_finished_episode_ids : List Progress → List String
  | [] => []
  | p :: rest =>
    let r := get_finished_episode_ids rest
    if p.isFinished && otruthy p.episodeId then setInsert (p.episodeId.getD "") r else r

/-- One element of a podcast's `media.episodes` array. -/
structure Episode where
  id : Option String
  title : Option String
  addedAt : Option Nat
deriving DecidableEq, Repr

/-- The `media` object of an expanded library item.  `title` and
`authorName` stand for `media.metadata.title` / `media.metadata.authorName`
(the scripts read nothing else from `metadata`). -/
structure Media where
  title : Option String
  authorName : Option String
  tags : List String
  episodes : List Episode
deriving DecidableEq, Repr

/-- An expanded library item as returned by `/api/items/:id?expanded=1`. -/
structure FullItem where
  media : Media
  addedAt : Option Nat
deriving DecidableEq, Repr

/-- A library as returned by `/api/libraries`, together with the item ids
its `/api/libraries/:id/items` listing reports.  The scripts issue that
request with no `limit` or `page` parameter, and the endpoint then returns
every item of the library in `results`, so `itemIds` is the complete
listing. -/
structure Library where
  id : String
  name : String
  mediaType : String
  itemIds : List String
deriving DecidableEq, Repr

/-- The observable server state: the libraries listing and the expanded
details per item id.  An id with no entry models the expanded-item request
raising (caught and skipped by the scripts). -/
structure Server where
  libraries : List Library
  details : List (String × FullItem)
deriving DecidableEq, Repr

/-- First-match lookup in an association list (Python `dict` lookup; the
builders below keep keys unique). -/
def dlookup {α : Type} (m : List (String × α)) (k : String) : Option α :=
  match m with
  | [] => none
  | kv :: rest => if kv.1 == k then some kv.2 else dlookup rest k

/-- Python `dict` assignment `m[k] = v`: replace the value in place if the
key is present, otherwise append the pair at the end (insertion order is
preserved, matching `dict` iteration order). -/
def dinsert {α : Type} (m : List (String × α)) (k : String) (v : α) : List (String × α) :=
  match m with
  | [] => [(k, v)]
  | kv :: rest => if kv.1 == k then (k, v) :: rest else kv :: dinsert rest k v

/-- Embedding of `ABSClient.get_libraries`. -/
def get_libraries (s : Server) : List Library :=
  s.libraries

/-- Embedding of `ABSClient.get_podcast_libraries`. -/
def get_podcast_libraries (s : Server) : List Library :=
  (get_libraries s).filter (fun lib => lib.mediaType == "podcast")

/-- Embedding of `ABSClient.get_book_libraries`. -/
def get_book_libraries (s : Server) : List Library :=
  (get_libraries s).filter (fun lib => lib.mediaType == "book")

/-- Embedding of `ABSClient.get_library_items`: the `results` field of the
(unpaginated) items listing for the given library id. -/
def get_library_items (s : Server) (libraryId : String) : List String :=
  (((s.libraries.find? (fun lib => lib.id == libraryId)).map Library.itemIds).getD [])

/-- Embedding of `ABSClient.get_library_item`: `none` models the request
raising an exception. -/
def get_library_item (s : Server) (libraryItemId : String) : Option FullItem :=
  dlookup s.details libraryItemId

/-- A DELETE request issued to the server.  `hard` records whether the
query string carried `hard=1` (the "also delete files on disk" flag). -/
inductive Request where
  | deleteEpisode (libraryItemId : String) (episodeId : String) (hard : Bool)
  | deleteItem (libraryItemId : String) (hard : Bool)
deriving DecidableEq, Repr

/-- Whether a request carries the hard-delete flag. -/
def Request.hard : Request → Bool
  | .deleteEpisode _ _ h => h
  | .deleteItem _ h => h

/-- Whether a request names the given library item (either deleting the
item itself or one of its episodes). -/
def targetsItem (r : Request) (iid : String) : Bool :=
  match r with
  | .deleteEpisode l _ _ => l == iid
  | .deleteItem l _ => l == iid

/-- Embedding of `ABSClient.delete_episode`: the request it sends
(`hard=1` is present exactly when `hard_delete` is true). -/
def delete_episode (libraryItemId episodeId : String) (hard_delete : Bool) : Request :=
  .deleteEpisode libraryItemId episodeId hard_delete

/-- Embedding of `ABSClient.delete_library_item`. -/
def delete_library_item (libraryItemId : String) (hard_delete : Bool) : Request :=
  .deleteItem libraryItemId hard_delete

/-- Embedding of v4 `is_old_enough`.  The source takes `now` implicitly
from `datetime.now()`; here it is an explicit parameter in milliseconds.
A falsy `added_at_ms` (absent or `0`) is treated as old enough. -/
def is_old_enough (added_at_ms : Option Nat) (now_ms : Int) (min_age_ms : Int) : Bool :=
  match added_at_ms with
  | none => true
  | some a =>
    if a = 0 then true
    else decide (min_age_ms ≤ now_ms - (a : Int))

/-- Value stored in the v4 episode map. -/
structure EpInfo where
  library_item_id : String
  podcast_title : String
  episode_title : String
  added_at : Option Nat
deriving DecidableEq, Repr

/-- Value stored in the v2 / v3 episode map (no `added_at`; the building
code is byte-identical in v2 and v3). -/
structure EpInfo3 where
  library_item_id : String
  podcast_title : String
  episode_title : String
deriving DecidableEq, Repr

/-- Value stored in the v4 audiobook map. -/
structure AbInfo where
  library_item_id : String
  audiobook_title : String
  author_name : String
  added_at : Option Nat
deriving DecidableEq, Repr

/-- Value stored in the v3 audiobook map (no `added_at`). -/
structure AbInfo3 where
  library_item_id : String
  audiobook_title : String
  author_name : String
deriving DecidableEq, Repr

/-- The v4 episode map type. -/
abbrev EMap := List (String × EpInfo)

/-- The v2 / v3 episode map type. -/
abbrev EMap3 := List (String × EpInfo3)

/-- The v4 audiobook map type. -/
abbrev AMap := List (String × AbInfo)

/-- The v3 audiobook map type. -/
abbrev AMap3 := List (String × AbInfo3)

/-- Inner loop of v4 `build_episode_map`: record one episode under its id
(skipped when the id is falsy). -/
def addEpisode (libraryItemId podcastTitle : String) (m : EMap) (ep : Episode) : EMap :=
  if otruthy ep.id then
    dinsert m (ep.id.getD "")
      ⟨libraryItemId, podcastTitle, ep.title.getD "Unknown Episode", ep.addedAt⟩
  else m

/-- Body of the per-item loop of v4 `build_episode_map`: fetch the item's
details (skip on failure), skip KEEP-tagged podcasts, otherwise record
every episode. -/
def scanPodcastItem (s : Server) (m : EMap) (libraryItemId : String) : EMap :=
  match get_library_item s libraryItemId with
  | none => m
  | some fullItem =>
    let media := fullItem.media
    let podcastTitle := media.title.getD "Unknown Podcast"
    if "KEEP" ∈ media.tags then m
    else media.episodes.foldl (addEpisode libraryItemId podcastTitle) m

/-- Embedding of v4 `build_episode_map`: scan every podcast library's
listing and record every episode of every non-KEEP podcast. -/
def build_episode_map (s : Server) : EMap :=
  (get_podcast_libraries s).foldl
    (fun m lib => (get_library_items s lib.id).foldl (scanPodcastItem s) m) []

/-- Inner loop of v2 / v3 `build_episode_map` (identical source text in
both versions; no `added_at` is recorded). -/
def addEpisode3 (libraryItemId podcastTitle : String) (m : EMap3) (ep : Episode) : EMap3 :=
  if otruthy ep.id then
    dinsert m (ep.id.getD "")
      ⟨libraryItemId, podcastTitle, ep.title.getD "Unknown Episode"⟩
  else m

/-- Body of the per-item loop of v2 / v3 `build_episode_map`. -/
def scanPodcastItem3 (s : Server) (m : EMap3) (libraryItemId : String) : EMap3 :=
  match get_library_item s libraryItemId with
  | none => m
  | some fullItem =>
    let media := fullItem.media
    let podcastTitle := media.title.getD "Unknown Podcast"
    if "KEEP" ∈ media.tags then m
    else media.episodes.foldl (addEpisode3 libraryItemId podcastTitle) m

/-- Embedding of v2 / v3 `build_episode_map`. -/
def build_episode_map_v23 (s : Server) : EMap3 :=
  (get_podcast_libraries s).foldl
    (fun m lib => (get_library_items s lib.id).foldl (scanPodcastItem3 s) m) []

/-- Body of the per-item loop of v4 `build_audiobook_map`: skip items not
in the finished set, fetch details (skip on failure), skip KEEP-tagged
audiobooks, otherwise record the item keyed by its own id (`added_at`
comes from the full item, not the media object). -/
def scanBookItem (s : Server) (finished : List String) (m : AMap) (libraryItemId : String) :
    AMap :=
  if libraryItemId ∈ finished then
    match get_library_item s libraryItemId with
    | none => m
    | some fullItem =>
      let media := fullItem.media
      if "KEEP" ∈ media.tags then m
      else
        dinsert m libraryItemId
          ⟨libraryItemId, media.title.getD "Unknown Audiobook",
            media.authorName.getD "Unknown Author", fullItem.addedAt⟩
  else m

/-- Embedding of v4 `build_audiobook_map`. -/
def build_audiobook_map (s : Server) (finished : List String) : AMap :=
  (get_book_libraries s).foldl
    (fun m lib => (get_library_items s lib.id).foldl (scanBookItem s finished) m) []

/-- Body of the per-item loop of v3 `build_audiobook_map` (no `added_at`). -/
def scanBookItem3 (s : Server) (finished : List String) (m : AMap3) (libraryItemId : String) :
    AMap3 :=
  if libraryItemId ∈ finished then
    match get_library_item s libraryItemId with
    | none => m
    | some fullItem =>
      let media := fullItem.media
      if "KEEP" ∈ media.tags then m
      else
        dinsert m libraryItemId
          ⟨libraryItemId, media.title.getD "Unknown Audiobook",
            media.authorName.getD "Unknown Author"⟩
  else m

/-- Embedding of v3 `build_audiobook_map`. -/
def build_audiobook_map_v3 (s : Server) (finished : List String) : AMap3 :=
  (get_book_libraries s).foldl
    (fun m lib => (get_library_items s lib.id).foldl (scanBookItem3 s finished) m) []

/-- A v4 episode deletion candidate: the dict
`\x7b'episode_id': episode_id, **ep_data\x7d` built in `main`. -/
structure EpCand where
  episode_id : String
  info : EpInfo
deriving DecidableEq, Repr

/-- A v2 / v3 episode deletion candidate. -/
structure EpCand3 where
  episode_id : String
  info : EpInfo3
deriving DecidableEq, Repr

/-- Embedding of the candidate-selection loop of v4 `main` (lines 422-441):
walk the finished episode ids; an id present in the episode map becomes a
candidate unless an AGE filter is configured and the entry is too recent,
in which case the skipped-too-recent counter is incremented instead.
Returns `(episodes_to_delete, total_skipped_age contribution)`. -/
def v4SelectEpisodes (finished : List String) (m : EMap) (minAge : Option Int) (now : Int) :
    List EpCand × Nat :=
  match finished with
  | [] => ([], 0)
  | eid :: rest =>
    let r := v4SelectEpisodes rest m minAge now
    match dlookup m eid with
    | none => r
    | some info =>
      match minAge with
      | some a =>
        if is_old_enough info.added_at now a then (⟨eid, info⟩ :: r.1, r.2)
        else (r.1, r.2 + 1)
      | none => (⟨eid, info⟩ :: r.1, r.2)

/-- Embedding of the candidate-selection loop shared by v2 `main`
(lines 233-239) and v3 `main` (lines 339-345): finished ids found in the
episode map become candidates, with no age logic. -/
def v23SelectEpisodes (finished : List String) (m : EMap3) : List EpCand3 :=
  match finished with
  | [] => []
  | eid :: rest =>
    let r := v23SelectEpisodes rest m
    match dlookup m eid with
    | none => r
    | some info => ⟨eid, info⟩ :: r

/-- Recursive worker for the v4 audiobook age filter: partition the
audiobook map into old-enough entries (kept, in order) and a count of
too-recent entries. -/
def v4FilterAudiobooksGo (a : Int) (now : Int) : AMap → AMap × Nat
  | [] => ([], 0)
  | kv :: rest =>
    let r := v4FilterAudiobooksGo a now rest
    if is_old_enough kv.2.added_at now a then (kv :: r.1, r.2) else (r.1, r.2 + 1)

/-- Embedding of the v4 audiobook age filter (`main` lines 480-493): with
no AGE configured `audiobooks_to_delete` is the whole map and nothing is
counted as skipped; otherwise too-recent entries are dropped and counted. -/
def v4FilterAudiobooks (m : AMap) (minAge : Option Int) (now : Int) : AMap × Nat :=
  match minAge with
  | none => (m, 0)
  | some a => v4FilterAudiobooksGo a now m

/-- Embedding of the v4 episode deletion loop (`main` lines 449-464), and
of the identical v3 loop up to the extra `added_at` field of the
candidates.  Per candidate: in dry-run mode no request is issued and the
deleted counter is incremented; otherwise the `delete_episode` request is
issued and, depending on whether it raises (membership in `failSet`), the
failed or the deleted counter is incremented.  The `try` / `except` pair
wraps each iteration separately, so a failure never stops the loop.
Returns `(requests issued, deleted, failed)`. -/
def deleteEpisodesLoop (cands : List EpCand) (dryRun : Bool) (failSet : List Request) :
    List Request × Nat × Nat :=
  match cands with
  | [] => ([], 0, 0)
  | c :: rest =>
    let r := deleteEpisodesLoop rest dryRun failSet
    if dryRun then (r.1, r.2.1 + 1, r.2.2)
    else
      let req := delete_episode c.info.library_item_id c.episode_id true
      if req ∈ failSet then (req :: r.1, r.2.1, r.2.2 + 1)
      else (req :: r.1, r.2.1 + 1, r.2.2)

/-- The v2 / v3 episode deletion loop (v2 `main` lines 253-268, v3 `main`
lines 353-368; identical source text). -/
def deleteEpisodesLoop3 (cands : List EpCand3) (dryRun : Bool) (failSet : List Request) :
    List Request × Nat × Nat :=
  match cands with
  | [] => ([], 0, 0)
  | c :: rest =>
    let r := deleteEpisodesLoop3 rest dryRun failSet
    if dryRun then (r.1, r.2.1 + 1, r.2.2)
    else
      let req := delete_episode c.info.library_item_id c.episode_id true
      if req ∈ failSet then (req :: r.1, r.2.1, r.2.2 + 1)
      else (req :: r.1, r.2.1 + 1, r.2.2)

/-- Embedding of the v4 audiobook deletion loop (`main` lines 501-516),
iterating the values of `audiobooks_to_delete` in map order. -/
def deleteItemsLoop (cands : AMap) (dryRun : Bool) (failSet : List Request) :
    List Request × Nat × Nat :=
  match cands with
  | [] => ([], 0, 0)
  | kv :: rest =>
    let r := deleteItemsLoop rest dryRun failSet
    if dryRun then (r.1, r.2.1 + 1, r.2.2)
    else
      let req := delete_library_item kv.2.library_item_id true
      if req ∈ failSet then (req :: r.1, r.2.1, r.2.2 + 1)
      else (req :: r.1, r.2.1 + 1, r.2.2)

/-- The v3 audiobook deletion loop (`main` lines 389-404). -/
def deleteItemsLoop3 (cands : AMap3) (dryRun : Bool) (failSet : List Request) :
    List Request × Nat × Nat :=
  match cands with
  | [] => ([], 0, 0)
  | kv :: rest =>
    let r := deleteItemsLoop3 rest dryRun failSet
    if dryRun then (r.1, r.2.1 + 1, r.2.2)
    else
      let req := delete_library_item kv.2.library_item_id true
      if req ∈ failSet then (req :: r.1, r.2.1, r.2.2 + 1)
      else (req :: r.1, r.2.1 + 1, r.2.2)

/-- The `MEDIA_TYPE` configuration value of v3 / v4 (invalid values make
the script exit before doing anything, so only the three valid values are
modelled). -/
inductive MediaType where
  | PODCASTS
  | AUDIOBOOKS
  | EVERYTHING
deriving DecidableEq, Repr

/-- `process_podcasts = media_type in ('PODCASTS', 'EVERYTHING')`. -/
def processPodcastsFlag : MediaType → Bool
  | .PODCASTS => true
  | .EVERYTHING => true
  | .AUDIOBOOKS => false

/-- `process_audiobooks = media_type in ('AUDIOBOOKS', 'EVERYTHING')`. -/
def processAudiobooksFlag : MediaType → Bool
  | .AUDIOBOOKS => true
  | .EVERYTHING => true
  | .PODCASTS => false

/-- Outcome of a run: the DELETE requests issued (in order) and the three
summary counters (v2 / v3 have no age counter; theirs is always `0`). -/
structure RunResult where
  requests : List Request
  total_deleted : Nat
  total_failed : Nat
  total_skipped_age : Nat
deriving DecidableEq, Repr

/-- The podcast section of v4 `main` up to the deletion loop: under the
`process_podcasts and finished_episode_ids` guard, build the episode map
and select candidates; otherwise nothing happens.  Returns
`(episodes_to_delete, total_skipped_age contribution)`. -/
def v4PodcastPhase (s : Server) (progress : List Progress) (mediaType : MediaType)
    (minAge : Option Int) (now : Int) : List EpCand × Nat :=
  let fm := get_finished_media progress
  if processPodcastsFlag mediaType && !fm.1.isEmpty then
    v4SelectEpisodes fm.1 (build_episode_map s) minAge now
  else ([], 0)

/-- The audiobook section of v4 `main` up to the deletion loop: under the
`process_audiobooks and finished_audiobook_ids` guard, build the audiobook
map and apply the age filter.  Returns
`(audiobooks_to_delete, total_skipped_age contribution)`. -/
def v4AudiobookPhase (s : Server) (progress : List Progress) (mediaType : MediaType)
    (minAge : Option Int) (now : Int) : AMap × Nat :=
  let fm := get_finished_media progress
  if processAudiobooksFlag mediaType && !fm.2.isEmpty then
    v4FilterAudiobooks (build_audiobook_map s fm.2) minAge now
  else ([], 0)

/-- Embedding of v4 `main` after configuration resolution: run the podcast
section then the audiobook section, concatenating the issued requests and
summing the counters exactly as the script's running totals do.
`minAge = none` models `AGE` unset. -/
def runV4 (s : Server) (progress : List Progress) (mediaType : MediaType)
    (minAge : Option Int) (now : Int) (dryRun : Bool) (failSet : List Request) : RunResult :=
  let ep := v4PodcastPhase s progress mediaType minAge now
  let ab := v4AudiobookPhase s progress mediaType minAge now
  let epDel := deleteEpisodesLoop ep.1 dryRun failSet
  let abDel := deleteItemsLoop ab.1 dryRun failSet
  { requests := epDel.1 ++ abDel.1
    total_deleted := epDel.2.1 + abDel.2.1
    total_failed := epDel.2.2 + abDel.2.2
    total_skipped_age := ep.2 + ab.2 }

/-- Embedding of v3 `main` after configuration resolution. -/
def runV3 (s : Server) (progress : List Progress) (mediaType : MediaType)
    (dryRun : Bool) (failSet : List Request) : RunResult :=
  let fm := get_finished_media progress
  let epPart :=
    if processPodcastsFlag mediaType && !fm.1.isEmpty then
      deleteEpisodesLoop3 (v23SelectEpisodes fm.1 (build_episode_map_v23 s)) dryRun failSet
    else ([], 0, 0)
  let abPart :=
    if processAudiobooksFlag mediaType && !fm.2.isEmpty then
      deleteItemsLoop3 (build_audiobook_map_v3 s fm.2) dryRun failSet
    else ([], 0, 0)
  { requests := epPart.1 ++ abPart.1
    total_deleted := epPart.2.1 + abPart.2.1
    total_failed := epPart.2.2 + abPart.2.2
    total_skipped_age := 0 }

/-- Embedding of v2 `main` after configuration resolution (podcasts only;
the early `return`s on an empty finished set or an empty candidate list
issue no requests and leave both counters at zero). -/
def runV2 (s : Server) (progress : List Progress) (dryRun : Bool) (failSet : List Request) :
    RunResult :=
  let finished := get_finished_episode_ids progress
  if finished.isEmpty then ⟨[], 0, 0, 0⟩
  else
    let cands := v23SelectEpisodes finished (build_episode_map_v23 s)
    if cands.isEmpty then ⟨[], 0, 0, 0⟩
    else
      let del := deleteEpisodesLoop3 cands dryRun failSet
      ⟨del.1, del.2.1, del.2.2, 0⟩

/-! Helper lemmas. -/

theorem setInsert_mem (x y : String) (s : List String) :
    x ∈ setInsert y s ↔ x = y ∨ x ∈ s := by
  unfold setInsert
  split <;> rename_i h
  · constructor
    · exact fun hx => Or.inr hx
    · rintro (rfl | hx) <;> [exact h; exact hx]
  · simp [List.mem_cons]

theorem otruthy_some_iff (o : Option String) (x : String) :
    (o = some x ∧ x ≠ "") ↔ (otruthy o = true ∧ o.getD "" = x) := by
  cases o with
  | none => simp [otruthy]
  | some s =>
    simp only [otruthy, Option.some.injEq, Option.getD_some, bne_iff_ne, ne_eq]
    constructor
    · rintro ⟨rfl, h⟩; exact ⟨h, rfl⟩
    · rintro ⟨h, rfl⟩; exact ⟨rfl, h⟩

theorem dlookup_dinsert {α : Type} (m : List (String × α)) (k k2 : String) (v : α) :
    dlookup (dinsert m k v) k2 = if k2 = k then some v else dlookup m k2 := by
  induction m with
  | nil =>
    simp only [dinsert, dlookup]
    by_cases h : k2 = k
    · simp [h]
    · have hb : ¬ (k == k2) = true := by
        simp only [beq_iff_eq]
        exact fun hh => h hh.symm
      simp [hb, h]
  | cons kv rest ih =>
    by_cases hk : kv.1 = k
    · simp only [dinsert, hk, beq_self_eq_true, if_true, dlookup]
      by_cases h2 : k2 = k
      · simp [h2]
      · have hb : ¬ (k == k2) = true := by
          simp only [beq_iff_eq]
          exact fun hh => h2 hh.symm
        have hb2 : ¬ (kv.1 == k2) = true := by
          simp only [beq_iff_eq, hk]
          exact fun hh => h2 hh.symm
        simp [dlookup, hb, hb2, h2]
    · have hbk : ¬ (kv.1 == k) = true := by simp [beq_iff_eq, hk]
      simp only [dinsert, hbk, if_false, dlookup]
      by_cases h3 : kv.1 = k2
      · have h2 : ¬ k2 = k := fun hh => hk (h3.trans hh)
        have hb3 : (kv.1 == k2) = true := by simp [beq_iff_eq, h3]
        simp [hb3, h2]
      · have hb3 : ¬ (kv.1 == k2) = true := by simp [beq_iff_eq, h3]
        simp [hb3, ih]

theorem dlookup_mem {α : Type} (m : List (String × α)) (k : String) (v : α)
    (h : dlookup m k = some v) : (k, v) ∈ m := by
  induction m with
  | nil => simp [dlookup] at h
  | cons kv rest ih =>
    obtain ⟨k1, v1⟩ := kv
    simp only [dlookup] at h
    split at h
    · rename_i hb
      have hk : k1 = k := by simpa using hb
      subst hk
      cases h
      exact List.mem_cons_self _ _
    · exact List.mem_cons_of_mem _ (ih h)

theorem mem_dinsert {α : Type} (m : List (String × α)) (k : String) (v : α) (kv : String × α)
    (h : kv ∈ dinsert m k v) : kv ∈ m ∨ kv = (k, v) := by
  induction m with
  | nil => simpa [dinsert] using h
  | cons kv0 rest ih =>
    simp only [dinsert] at h
    split at h
    · rcases List.mem_cons.mp h with h1 | h1
      · exact Or.inr h1
      · exact Or.inl (List.mem_cons_of_mem _ h1)
    · rcases List.mem_cons.mp h with h1 | h1
      · exact Or.inl (h1 ▸ List.mem_cons_self _ _)
      · rcases ih h1 with h2 | h2
        · exact Or.inl (List.mem_cons_of_mem _ h2)
        · exact Or.inr h2

theorem foldl_pred_mono {α β : Type} (P : β → Prop) (f : β → α → β)
    (h : ∀ b a, P b → P (f b a)) (l : List α) (b : β) (hb : P b) : P (l.foldl f b) := by
  induction l generalizing b with
  | nil => exact hb
  | cons a l ih => exact ih _ (h _ _ hb)

theorem foldl_pred_mem {α β : Type} (P : β → Prop) (f : β → α → β)
    (hmono : ∀ b a, P b → P (f b a)) {x : α} {l : List α} (hx : x ∈ l)
    (hstep : ∀ b, P (f b x)) (init : β) : P (l.foldl f init) := by
  induction l generalizing init with
  | nil => cases hx
  | cons a l ih =>
    rcases List.mem_cons.mp hx with rfl | hx2
    · exact foldl_pred_mono P f hmono l _ (hstep init)
    · exact ih hx2 _

theorem foldl_map_comm {α β γ : Type} (g : β → γ) (f : β → α → β) (f2 : γ → α → γ)
    (h : ∀ b a, f2 (g b) a = g (f b a)) (l : List α) (b : β) :
    l.foldl f2 (g b) = g (l.foldl f b) := by
  induction l generalizing b with
  | nil => rfl
  | cons a l ih => simp only [List.foldl, h, ih]

theorem v4SelectEpisodes_mem_none (f : List String) (m : EMap) (now : Int) (c : EpCand) :
    c ∈ (v4SelectEpisodes f m none now).1 ↔
      c.episode_id ∈ f ∧ dlookup m c.episode_id = some c.info := by
  induction f with
  | nil => simp [v4SelectEpisodes]
  | cons eid rest ih =>
    simp only [v4SelectEpisodes]
    cases hl : dlookup m eid with
    | none =>
      simp only [ih, List.mem_cons]
      constructor
      · rintro ⟨h1, h2⟩
        exact ⟨Or.inr h1, h2⟩
      · rintro ⟨h1 | h1, h2⟩
        · rw [h1, hl] at h2
          cases h2
        · exact ⟨h1, h2⟩
    | some info =>
      simp only [List.mem_cons, ih]
      constructor
      · rintro (rfl | ⟨h1, h2⟩)
        · exact ⟨Or.inl rfl, hl⟩
        · exact ⟨Or.inr h1, h2⟩
      · rintro ⟨h1 | h1, h2⟩
        · obtain ⟨cid, cinfo⟩ := c
          simp only at h1 h2
          subst h1
          rw [hl] at h2
          cases h2
          exact Or.inl rfl
        · exact Or.inr ⟨h1, h2⟩

theorem v4SelectEpisodes_mem_some (f : List String) (m : EMap) (A now : Int) (c : EpCand) :
    c ∈ (v4SelectEpisodes f m (some A) now).1 ↔
      c.episode_id ∈ f ∧ dlookup m c.episode_id = some c.info ∧
        is_old_enough c.info.added_at now A = true := by
  induction f with
  | nil => simp [v4SelectEpisodes]
  | cons eid rest ih =>
    simp only [v4SelectEpisodes]
    cases hl : dlookup m eid with
    | none =>
      simp only [ih, List.mem_cons]
      constructor
      · rintro ⟨h1, h2⟩
        exact ⟨Or.inr h1, h2⟩
      · rintro ⟨h1 | h1, h2⟩
        · rw [h1, hl] at h2
          cases h2.1
        · exact ⟨h1, h2⟩
    | some info =>
      dsimp only
      by_cases hold : is_old_enough info.added_at now A = true
      · rw [if_pos hold]
        simp only [List.mem_cons, ih]
        constructor
        · rintro (rfl | ⟨h1, h2⟩)
          · exact ⟨Or.inl rfl, hl, hold⟩
          · exact ⟨Or.inr h1, h2⟩
        · rintro ⟨h1 | h1, h2, h3⟩
          · obtain ⟨cid, cinfo⟩ := c
            simp only at h1 h2
            subst h1
            rw [hl] at h2
            cases h2
            exact Or.inl rfl
          · exact Or.inr ⟨h1, h2, h3⟩
      · rw [if_neg hold]
        simp only [ih]
        constructor
        · rintro ⟨h1, h2⟩
          exact ⟨List.mem_cons_of_mem _ h1, h2⟩
        · rintro ⟨h1, h2, h3⟩
          rcases List.mem_cons.mp h1 with h4 | h4
          · obtain ⟨cid, cinfo⟩ := c
            simp only at h4 h2 h3
            subst h4
            rw [hl] at h2
            cases h2
            exact absurd h3 hold
          · exact ⟨h4, h2, h3⟩

theorem v4SelectEpisodes_count_none (f : List String) (m : EMap) (now : Int) :
    (v4SelectEpisodes f m none now).2 = 0 := by
  induction f with
  | nil => rfl
  | cons eid rest ih =>
    simp only [v4SelectEpisodes]
    cases hl : dlookup m eid <;> simp [ih]

theorem v4SelectEpisodes_count_some (f : List String) (m : EMap) (A now : Int) :
    (v4SelectEpisodes f m (some A) now).2 =
      f.countP (fun eid =>
        match dlookup m eid with
        | some i => !is_old_enough i.added_at now A
        | none => false) := by
  induction f with
  | nil => rfl
  | cons eid rest ih =>
    simp only [v4SelectEpisodes, List.countP_cons]
    cases hl : dlookup m eid with
    | none => simp [hl, ih]
    | some i =>
      by_cases hold : is_old_enough i.added_at now A = true
      · simp [hl, hold, ih]
      · simp only [hl, ih]
        have hb : is_old_enough i.added_at now A = false := by
          simpa using hold
        simp [hb]

theorem v23SelectEpisodes_mem (f : List String) (m : EMap3) (c : EpCand3) :
    c ∈ v23SelectEpisodes f m ↔
      c.episode_id ∈ f ∧ dlookup m c.episode_id = some c.info := by
  induction f with
  | nil => simp [v23SelectEpisodes]
  | cons eid rest ih =>
    simp only [v23SelectEpisodes]
    cases hl : dlookup m eid with
    | none =>
      simp only [ih, List.mem_cons]
      constructor
      · rintro ⟨h1, h2⟩
        exact ⟨Or.inr h1, h2⟩
      · rintro ⟨h1 | h1, h2⟩
        · rw [h1, hl] at h2
          cases h2
        · exact ⟨h1, h2⟩
    | some info =>
      simp only [List.mem_cons, ih]
      constructor
      · rintro (rfl | ⟨h1, h2⟩)
        · exact ⟨Or.inl rfl, hl⟩
        · exact ⟨Or.inr h1, h2⟩
      · rintro ⟨h1 | h1, h2⟩
        · obtain ⟨cid, cinfo⟩ := c
          simp only at h1 h2
          subst h1
          rw [hl] at h2
          cases h2
          exact Or.inl rfl
        · exact Or.inr ⟨h1, h2⟩

theorem v4FilterAudiobooksGo_mem (A now : Int) (m : AMap) (kv : String × AbInfo) :
    kv ∈ (v4FilterAudiobooksGo A now m).1 ↔
      kv ∈ m ∧ is_old_enough kv.2.added_at now A = true := by
  induction m with
  | nil => simp [v4FilterAudiobooksGo]
  | cons kv0 rest ih =>
    simp only [v4FilterAudiobooksGo]
    by_cases hold : is_old_enough kv0.2.added_at now A = true
    · rw [if_pos hold]
      simp only [List.mem_cons, ih]
      constructor
      · rintro (rfl | ⟨h1, h2⟩)
        · exact ⟨Or.inl rfl, hold⟩
        · exact ⟨Or.inr h1, h2⟩
      · rintro ⟨h1 | h1, h2⟩
        · exact Or.inl h1
        · exact Or.inr ⟨h1, h2⟩
    · rw [if_neg hold]
      simp only [ih, List.mem_cons]
      constructor
      · rintro ⟨h1, h2⟩
        exact ⟨Or.inr h1, h2⟩
      · rintro ⟨h1 | h1, h2⟩
        · subst h1
          exact absurd h2 hold
        · exact ⟨h1, h2⟩

theorem v4FilterAudiobooksGo_count (A now : Int) (m : AMap) :
    (v4FilterAudiobooksGo A now m).2 =
      m.countP (fun kv => !is_old_enough kv.2.added_at now A) := by
  induction m with
  | nil => rfl
  | cons kv0 rest ih =>
    simp only [v4FilterAudiobooksGo, List.countP_cons]
    by_cases hold : is_old_enough kv0.2.added_at now A = true
    · simp [hold, ih]
    · have hb : is_old_enough kv0.2.added_at now A = false := by simpa using hold
      simp [hb, ih]

theorem deleteEpisodesLoop_dry (cands : List EpCand) (fs : List Request) :
    deleteEpisodesLoop cands true fs = ([], cands.length, 0) := by
  induction cands with
  | nil => rfl
  | cons c rest ih => simp [deleteEpisodesLoop, ih]

theorem deleteEpisodesLoop_requests (cands : List EpCand) (fs : List Request) :
    (deleteEpisodesLoop cands false fs).1 =
      cands.map (fun c => delete_episode c.info.library_item_id c.episode_id true) := by
  induction cands with
  | nil => rfl
  | cons c rest ih =>
    simp only [deleteEpisodesLoop, List.map_cons, Bool.false_eq_true, if_false]
    by_cases hf : delete_episode c.info.library_item_id c.episode_id true ∈ fs
    · simp [hf, ih]
    · simp [hf, ih]

theorem deleteEpisodesLoop_sum (cands : List EpCand) (d : Bool) (fs : List Request) :
    (deleteEpisodesLoop cands d fs).2.1 + (deleteEpisodesLoop cands d fs).2.2 =
      cands.length := by
  cases d with
  | true => simp [deleteEpisodesLoop_dry]
  | false =>
    induction cands with
    | nil => rfl
    | cons c rest ih =>
      simp only [deleteEpisodesLoop, List.length_cons, Bool.false_eq_true, if_false]
      by_cases hf : delete_episode c.info.library_item_id c.episode_id true ∈ fs
      · rw [if_pos hf]
        dsimp only
        omega
      · rw [if_neg hf]
        dsimp only
        omega

theorem deleteEpisodesLoop_counts (cands : List EpCand) (fs : List Request) :
    (deleteEpisodesLoop cands false fs).2.1 =
      cands.countP
        (fun c => !(decide (delete_episode c.info.library_item_id c.episode_id true ∈ fs))) ∧
    (deleteEpisodesLoop cands false fs).2.2 =
      cands.countP
        (fun c => decide (delete_episode c.info.library_item_id c.episode_id true ∈ fs)) := by
  induction cands with
  | nil => exact ⟨rfl, rfl⟩
  | cons c rest ih =>
    simp only [deleteEpisodesLoop, List.countP_cons, Bool.false_eq_true, if_false]
    by_cases hf : delete_episode c.info.library_item_id c.episode_id true ∈ fs
    · simp [hf, ih.1, ih.2]
    · simp [hf, ih.1, ih.2]

theorem deleteEpisodesLoop_requests_src (cands : List EpCand) (d : Bool) (fs : List Request)
    (r : Request) (h : r ∈ (deleteEpisodesLoop cands d fs).1) :
    ∃ c ∈ cands, r = delete_episode c.info.library_item_id c.episode_id true := by
  induction cands with
  | nil => simp [deleteEpisodesLoop] at h
  | cons c rest ih =>
    simp only [deleteEpisodesLoop] at h
    cases d with
    | true =>
      simp only [if_true] at h
      rcases ih h with ⟨c2, hc2, hr⟩
      exact ⟨c2, List.mem_cons_of_mem _ hc2, hr⟩
    | false =>
      simp only [Bool.false_eq_true, if_false] at h
      by_cases hf : delete_episode c.info.library_item_id c.episode_id true ∈ fs
      · simp only [hf, if_true] at h
        rcases List.mem_cons.mp h with rfl | h2
        · exact ⟨c, List.mem_cons_self _ _, rfl⟩
        · rcases ih h2 with ⟨c2, hc2, hr⟩
          exact ⟨c2, List.mem_cons_of_mem _ hc2, hr⟩
      · simp only [hf, if_false] at h
        rcases List.mem_cons.mp h with rfl | h2
        · exact ⟨c, List.mem_cons_self _ _, rfl⟩
        · rcases ih h2 with ⟨c2, hc2, hr⟩
          exact ⟨c2, List.mem_cons_of_mem _ hc2, hr⟩

theorem deleteItemsLoop_dry (cands : AMap) (fs : List Request) :
    deleteItemsLoop cands true fs = ([], cands.length, 0) := by
  induction cands with
  | nil => rfl
  | cons kv rest ih => simp [deleteItemsLoop, ih]

theorem deleteItemsLoop_requests (cands : AMap) (fs : List Request) :
    (deleteItemsLoop cands false fs).1 =
      cands.map (fun kv => delete_library_item kv.2.library_item_id true) := by
  induction cands with
  | nil => rfl
  | cons kv rest ih =>
    simp only [deleteItemsLoop, List.map_cons, Bool.false_eq_true, if_false]
    by_cases hf : delete_library_item kv.2.library_item_id true ∈ fs
    · simp [hf, ih]
    · simp [hf, ih]

theorem deleteItemsLoop_sum (cands : AMap) (d : Bool) (fs : List Request) :
    (deleteItemsLoop cands d fs).2.1 + (deleteItemsLoop cands d fs).2.2 = cands.length := by
  cases d with
  | true => simp [deleteItemsLoop_dry]
  | false =>
    induction cands with
    | nil => rfl
    | cons kv rest ih =>
      simp only [deleteItemsLoop, List.length_cons, Bool.false_eq_true, if_false]
      by_cases hf : delete_library_item kv.2.library_item_id true ∈ fs
      · rw [if_pos hf]
        dsimp only
        omega
      · rw [if_neg hf]
        dsimp only
        omega

theorem deleteItemsLoop_counts (cands : AMap) (fs : List Request) :
    (deleteItemsLoop cands false fs).2.1 =
      cands.countP (fun kv => !(decide (delete_library_item kv.2.library_item_id true ∈ fs))) ∧
    (deleteItemsLoop cands false fs).2.2 =
      cands.countP (fun kv => decide (delete_library_item kv.2.library_item_id true ∈ fs)) := by
  induction cands with
  | nil => exact ⟨rfl, rfl⟩
  | cons kv rest ih =>
    simp only [deleteItemsLoop, List.countP_cons, Bool.false_eq_true, if_false]
    by_cases hf : delete_library_item kv.2.library_item_id true ∈ fs
    · simp [hf, ih.1, ih.2]
    · simp [hf, ih.1, ih.2]

/-- Map a function over the values of an association list (keys and order
unchanged). -/
def mapVals {α β : Type} (g : α → β) (m : List (String × α)) : List (String × β) :=
  m.map (fun kv => (kv.1, g kv.2))

/-- Forget the `added_at` field a v4 episode-map entry records on top of a
v2 / v3 entry. -/
def EpInfo.toV23 (i : EpInfo) : EpInfo3 :=
  ⟨i.library_item_id, i.podcast_title, i.episode_title⟩

/-- Forget the `added_at` field of a v4 audiobook-map entry. -/
def AbInfo.toV3 (i : AbInfo) : AbInfo3 :=
  ⟨i.library_item_id, i.audiobook_title, i.author_name⟩

/-- Forget the `added_at` field of a v4 episode deletion candidate. -/
def EpCand.toV23 (c : EpCand) : EpCand3 :=
  ⟨c.episode_id, c.info.toV23⟩

theorem dinsert_mapVals {α β : Type} (g : α → β) (m : List (String × α)) (k : String)
    (v : α) : dinsert (mapVals g m) k (g v) = mapVals g (dinsert m k v) := by
  induction m with
  | nil => rfl
  | cons kv rest ih =>
    simp only [mapVals, List.map_cons, dinsert]
    by_cases hk : kv.1 = k
    · have hb : (kv.1 == k) = true := by simp [beq_iff_eq, hk]
      rw [if_pos hb, if_pos hb]
      rfl
    · have hb : ¬ ((kv.1 == k) = true) := by simp [beq_iff_eq, hk]
      rw [if_neg hb, if_neg hb]
      simp only [List.map_cons]
      rw [show List.map (fun kv => (kv.1, g kv.2)) rest = mapVals g rest from rfl, ih]
      rfl

theorem dlookup_mapVals {α β : Type} (g : α → β) (m : List (String × α)) (k : String) :
    dlookup (mapVals g m) k = (dlookup m k).map g := by
  induction m with
  | nil => rfl
  | cons kv rest ih =>
    simp only [mapVals, List.map_cons, dlookup]
    by_cases hk : kv.1 = k
    · have hb : (kv.1 == k) = true := by simp [beq_iff_eq, hk]
      simp [hb]
    · have hb : ¬ (kv.1 == k) = true := by simp [beq_iff_eq, hk]
      simp only [hb, if_false]
      simpa [mapVals] using ih

theorem addEpisode3_mapVals (iid pt : String) (m : EMap) (ep : Episode) :
    addEpisode3 iid pt (mapVals EpInfo.toV23 m) ep = mapVals EpInfo.toV23 (addEpisode iid pt m ep) := by
  unfold addEpisode addEpisode3
  by_cases ho : otruthy ep.id = true
  · rw [if_pos ho, if_pos ho]
    exact dinsert_mapVals EpInfo.toV23 m (ep.id.getD "")
      ⟨iid, pt, ep.title.getD "Unknown Episode", ep.addedAt⟩
  · rw [if_neg ho, if_neg ho]

theorem scanPodcastItem3_mapVals (s : Server) (m : EMap) (iid : String) :
    scanPodcastItem3 s (mapVals EpInfo.toV23 m) iid =
      mapVals EpInfo.toV23 (scanPodcastItem s m iid) := by
  unfold scanPodcastItem scanPodcastItem3
  cases hfi : get_library_item s iid with
  | none => rfl
  | some fullItem =>
    dsimp only
    by_cases hk : "KEEP" ∈ fullItem.media.tags
    · rw [if_pos hk, if_pos hk]
    · rw [if_neg hk, if_neg hk]
      exact foldl_map_comm (mapVals EpInfo.toV23) _ _
        (fun b a => addEpisode3_mapVals iid _ b a) fullItem.media.episodes m

theorem build_episode_map_v23_eq (s : Server) :
    build_episode_map_v23 s = mapVals EpInfo.toV23 (build_episode_map s) := by
  unfold build_episode_map build_episode_map_v23
  have h0 : (([] : EMap3) = mapVals EpInfo.toV23 ([] : EMap)) := rfl
  rw [h0]
  refine foldl_map_comm (mapVals EpInfo.toV23) _ _ ?_ (get_podcast_libraries s) []
  intro b lib
  exact foldl_map_comm (mapVals EpInfo.toV23) _ _
    (fun b2 iid => scanPodcastItem3_mapVals s b2 iid) (get_library_items s lib.id) b

theorem v23SelectEpisodes_mapVals (f : List String) (m : EMap) (now : Int) :
    v23SelectEpisodes f (mapVals EpInfo.toV23 m) =
      (v4SelectEpisodes f m none now).1.map EpCand.toV23 := by
  induction f with
  | nil => rfl
  | cons eid rest ih =>
    simp only [v23SelectEpisodes, v4SelectEpisodes, dlookup_mapVals]
    cases hl : dlookup m eid with
    | none => simpa using ih
    | some info =>
      dsimp only [Option.map_some]
      simp only [List.map_cons]
      rw [ih]
      rfl

theorem deleteEpisodesLoop3_map (cands : List EpCand) (d : Bool) (fs : List Request) :
    deleteEpisodesLoop3 (cands.map EpCand.toV23) d fs = deleteEpisodesLoop cands d fs := by
  induction cands with
  | nil => rfl
  | cons c rest ih =>
    simp only [List.map_cons, deleteEpisodesLoop3, deleteEpisodesLoop, ih]
    rfl

theorem scanBookItem3_mapVals (s : Server) (f : List String) (m : AMap) (iid : String) :
    scanBookItem3 s f (mapVals AbInfo.toV3 m) iid =
      mapVals AbInfo.toV3 (scanBookItem s f m iid) := by
  unfold scanBookItem scanBookItem3
  by_cases hin : iid ∈ f
  · rw [if_pos hin, if_pos hin]
    cases hfi : get_library_item s iid with
    | none => rfl
    | some fullItem =>
      dsimp only
      by_cases hk : "KEEP" ∈ fullItem.media.tags
      · rw [if_pos hk, if_pos hk]
      · rw [if_neg hk, if_neg hk]
        exact dinsert_mapVals AbInfo.toV3 m iid
          ⟨iid, fullItem.media.title.getD "Unknown Audiobook",
            fullItem.media.authorName.getD "Unknown Author", fullItem.addedAt⟩
  · rw [if_neg hin, if_neg hin]

theorem build_audiobook_map_v3_eq (s : Server) (f : List String) :
    build_audiobook_map_v3 s f = mapVals AbInfo.toV3 (build_audiobook_map s f) := by
  unfold build_audiobook_map build_audiobook_map_v3
  have h0 : (([] : AMap3) = mapVals AbInfo.toV3 ([] : AMap)) := rfl
  rw [h0]
  refine foldl_map_comm (mapVals AbInfo.toV3) _ _ ?_ (get_book_libraries s) []
  intro b lib
  exact foldl_map_comm (mapVals AbInfo.toV3) _ _
    (fun b2 iid => scanBookItem3_mapVals s f b2 iid) (get_library_items s lib.id) b

theorem deleteItemsLoop3_mapVals (m : AMap) (d : Bool) (fs : List Request) :
    deleteItemsLoop3 (mapVals AbInfo.toV3 m) d fs = deleteItemsLoop m d fs := by
  induction m with
  | nil => rfl
  | cons kv rest ih =>
    show deleteItemsLoop3 ((kv.1, AbInfo.toV3 kv.2) :: mapVals AbInfo.toV3 rest) d fs = _
    simp only [deleteItemsLoop3, deleteItemsLoop, ih]
    rfl

theorem runV4_none_eq_runV3 (s : Server) (p : List Progress) (mt : MediaType)
    (now : Int) (d : Bool) (fs : List Request) :
    runV4 s p mt none now d fs = runV3 s p mt d fs := by
  have hep : deleteEpisodesLoop (v4PodcastPhase s p mt none now).1 d fs =
      (if processPodcastsFlag mt && !(get_finished_media p).1.isEmpty then
        deleteEpisodesLoop3
          (v23SelectEpisodes (get_finished_media p).1 (build_episode_map_v23 s)) d fs
      else ([], 0, 0)) := by
    unfold v4PodcastPhase
    dsimp only
    split
    · rw [build_episode_map_v23_eq, v23SelectEpisodes_mapVals _ _ now,
        deleteEpisodesLoop3_map]
    · rfl
  have hab : deleteItemsLoop (v4AudiobookPhase s p mt none now).1 d fs =
      (if processAudiobooksFlag mt && !(get_finished_media p).2.isEmpty then
        deleteItemsLoop3 (build_audiobook_map_v3 s (get_finished_media p).2) d fs
      else ([], 0, 0)) := by
    unfold v4AudiobookPhase
    dsimp only
    split
    · rw [build_audiobook_map_v3_eq, deleteItemsLoop3_mapVals]
      rfl
    · rfl
  have hskip : (v4PodcastPhase s p mt none now).2 = 0 := by
    unfold v4PodcastPhase
    dsimp only
    split
    · exact v4SelectEpisodes_count_none _ _ _
    · rfl
  have habskip : (v4AudiobookPhase s p mt none now).2 = 0 := by
    unfold v4AudiobookPhase
    dsimp only
    split
    · rfl
    · rfl
  unfold runV4 runV3
  dsimp only
  rw [hep, hab, hskip, habskip]

theorem exists_cons_skip {α : Type} (P : α → Prop) (p : α) (rest : List α) (hp : ¬ P p) :
    (∃ q ∈ p :: rest, P q) ↔ ∃ q ∈ rest, P q := by
  constructor
  · rintro ⟨q, hq, h⟩
    rcases List.mem_cons.mp hq with rfl | hq2
    · exact absurd h hp
    · exact ⟨q, hq2, h⟩
  · rintro ⟨q, hq, h⟩
    exact ⟨q, List.mem_cons_of_mem _ hq, h⟩

theorem exists_cons_tail {α : Type} (P : α → Prop) (p : α) (rest : List α)
    (h : ∃ q ∈ rest, P q) : ∃ q ∈ p :: rest, P q := by
  rcases h with ⟨q, hq, hpq⟩
  exact ⟨q, List.mem_cons_of_mem _ hq, hpq⟩

theorem get_finished_media_fst_mem (ps : List Progress) (x : String) :
    x ∈ (get_finished_media ps).1 ↔
      ∃ p ∈ ps, p.isFinished = true ∧ p.episodeId = some x ∧ x ≠ "" := by
  induction ps with
  | nil => simp [get_finished_media]
  | cons p rest ih =>
    simp only [get_finished_media]
    by_cases hf : p.isFinished = true
    · by_cases he : otruthy p.episodeId = true
      · rw [if_pos hf, if_pos he]
        dsimp only
        rw [setInsert_mem, ih]
        constructor
        · rintro (rfl | ⟨q, hq, h⟩)
          · exact ⟨p, List.mem_cons_self _ _, hf,
              ((otruthy_some_iff p.episodeId (p.episodeId.getD "")).mpr ⟨he, rfl⟩)⟩
          · exact ⟨q, List.mem_cons_of_mem _ hq, h⟩
        · rintro ⟨q, hq, h1, h2, h3⟩
          rcases List.mem_cons.mp hq with rfl | hq4
          · exact Or.inl ((otruthy_some_iff q.episodeId x).mp ⟨h2, h3⟩).2.symm
          · exact Or.inr ⟨q, hq4, h1, h2, h3⟩
      · rw [if_pos hf, if_neg he]
        have hfst : (if otruthy p.libraryItemId = true then
            ((get_finished_media rest).1,
              setInsert (p.libraryItemId.getD "") (get_finished_media rest).2)
          else get_finished_media rest).1 = (get_finished_media rest).1 := by
          split <;> rfl
        rw [hfst, ih]
        rw [exists_cons_skip]
        rintro ⟨-, h2, h3⟩
        exact he ((otruthy_some_iff p.episodeId x).mp ⟨h2, h3⟩).1
    · rw [if_neg hf, ih]
      rw [exists_cons_skip]
      rintro ⟨h1, -⟩
      exact hf h1

theorem get_finished_media_snd_mem (ps : List Progress) (x : String) :
    x ∈ (get_finished_media ps).2 ↔
      ∃ p ∈ ps, p.isFinished = true ∧ otruthy p.episodeId = false ∧
        p.libraryItemId = some x ∧ x ≠ "" := by
  induction ps with
  | nil => simp [get_finished_media]
  | cons p rest ih =>
    simp only [get_finished_media]
    by_cases hf : p.isFinished = true
    · by_cases he : otruthy p.episodeId = true
      · rw [if_pos hf, if_pos he]
        dsimp only
        rw [ih, exists_cons_skip]
        rintro ⟨-, h2, -⟩
        rw [he] at h2
        cases h2
      · by_cases hl : otruthy p.libraryItemId = true
        · rw [if_pos hf, if_neg he, if_pos hl]
          dsimp only
          rw [setInsert_mem, ih]
          constructor
          · rintro (rfl | ⟨q, hq, h⟩)
            · exact ⟨p, List.mem_cons_self _ _, hf, Bool.eq_false_iff.mpr he,
                ((otruthy_some_iff p.libraryItemId (p.libraryItemId.getD "")).mpr ⟨hl, rfl⟩)⟩
            · exact ⟨q, List.mem_cons_of_mem _ hq, h⟩
          · rintro ⟨q, hq, h1, h2, h3, h4⟩
            rcases List.mem_cons.mp hq with rfl | hq4
            · exact Or.inl ((otruthy_some_iff q.libraryItemId x).mp ⟨h3, h4⟩).2.symm
            · exact Or.inr ⟨q, hq4, h1, h2, h3, h4⟩
        · rw [if_pos hf, if_neg he, if_neg hl]
          rw [ih, exists_cons_skip]
          rintro ⟨-, -, h3, h4⟩
          exact hl ((otruthy_some_iff p.libraryItemId x).mp ⟨h3, h4⟩).1
    · rw [if_neg hf, ih]
      rw [exists_cons_skip]
      rintro ⟨h1, -⟩
      exact hf h1

theorem get_finished_episode_ids_eq (ps : List Progress) :
    get_finished_episode_ids ps = (get_finished_media ps).1 := by
  induction ps with
  | nil => rfl
  | cons p rest ih =>
    simp only [get_finished_episode_ids, get_finished_media]
    cases hf : p.isFinished <;> cases he : otruthy p.episodeId <;>
      cases hl : otruthy p.libraryItemId <;> simp [hf, he, hl, ih]

theorem runV3_podcasts_eq_runV2 (s : Server) (p : List Progress) (d : Bool)
    (fs : List Request) :
    runV3 s p MediaType.PODCASTS d fs = runV2 s p d fs := by
  unfold runV3 runV2
  rw [get_finished_episode_ids_eq]
  dsimp only [processPodcastsFlag, processAudiobooksFlag]
  cases hemp : (get_finished_media p).1.isEmpty with
  | true => simp
  | false =>
    by_cases hc : v23SelectEpisodes (get_finished_media p).1 (build_episode_map_v23 s) = []
    · simp [hc, deleteEpisodesLoop3]
    · have hc2 :
          (v23SelectEpisodes (get_finished_media p).1 (build_episode_map_v23 s)).isEmpty
            = false := by
        simpa [List.isEmpty_iff] using hc
      simp [hc2]

theorem dlookup_isSome_dinsert {α : Type} (m : List (String × α)) (k k2 : String) (v : α)
    (h : (dlookup m k2).isSome = true) : (dlookup (dinsert m k v) k2).isSome = true := by
  rw [dlookup_dinsert]
  split <;> simp [h]

theorem dlookup_dinsert_self {α : Type} (m : List (String × α)) (k : String) (v : α) :
    dlookup (dinsert m k v) k = some v := by
  rw [dlookup_dinsert, if_pos rfl]

theorem addEpisode_entry_pres (s : Server) (iid pt : String) (fullItem : FullItem)
    (hfi : get_library_item s iid = some fullItem)
    (hk : "KEEP" ∉ fullItem.media.tags)
    (m : EMap)
    (hm : ∀ kv ∈ m, ∃ fi, get_library_item s kv.2.library_item_id = some fi ∧
      "KEEP" ∉ fi.media.tags)
    (ep : Episode) :
    ∀ kv ∈ addEpisode iid pt m ep, ∃ fi, get_library_item s kv.2.library_item_id = some fi ∧
      "KEEP" ∉ fi.media.tags := by
  unfold addEpisode
  by_cases ho : otruthy ep.id = true
  · rw [if_pos ho]
    intro kv hkv
    rcases mem_dinsert _ _ _ _ hkv with h | h
    · exact hm kv h
    · subst h
      exact ⟨fullItem, hfi, hk⟩
  · rw [if_neg ho]
    exact hm

theorem scanPodcastItem_entry_pres (s : Server) (iid : String) (m : EMap)
    (hm : ∀ kv ∈ m, ∃ fi, get_library_item s kv.2.library_item_id = some fi ∧
      "KEEP" ∉ fi.media.tags) :
    ∀ kv ∈ scanPodcastItem s m iid, ∃ fi, get_library_item s kv.2.library_item_id = some fi ∧
      "KEEP" ∉ fi.media.tags := by
  unfold scanPodcastItem
  cases hfi : get_library_item s iid with
  | none => exact hm
  | some fullItem =>
    dsimp only
    by_cases hk : "KEEP" ∈ fullItem.media.tags
    · rw [if_pos hk]
      exact hm
    · rw [if_neg hk]
      exact foldl_pred_mono
        (fun m2 => ∀ kv ∈ m2, ∃ fi, get_library_item s kv.2.library_item_id = some fi ∧
          "KEEP" ∉ fi.media.tags)
        (addEpisode iid (fullItem.media.title.getD "Unknown Podcast"))
        (fun m2 ep hm2 => addEpisode_entry_pres s iid _ fullItem hfi hk m2 hm2 ep)
        fullItem.media.episodes m hm

theorem build_episode_map_entry_src (s : Server) :
    ∀ kv ∈ build_episode_map s,
      ∃ fi, get_library_item s kv.2.library_item_id = some fi ∧ "KEEP" ∉ fi.media.tags := by
  unfold build_episode_map
  refine foldl_pred_mono
    (fun m : EMap => ∀ kv ∈ m, ∃ fi, get_library_item s kv.2.library_item_id = some fi ∧
      "KEEP" ∉ fi.media.tags)
    _ ?_ _ _ ?_
  · intro m lib hm
    exact foldl_pred_mono
      (fun m2 => ∀ kv ∈ m2, ∃ fi, get_library_item s kv.2.library_item_id = some fi ∧
        "KEEP" ∉ fi.media.tags)
      (scanPodcastItem s)
      (fun m2 iid hm2 => scanPodcastItem_entry_pres s iid m2 hm2)
      (get_library_items s lib.id) m hm
  · intro kv h
    cases h

theorem scanBookItem_entry_pres (s : Server) (f : List String) (iid : String) (m : AMap)
    (hm : ∀ kv ∈ m, kv.2.library_item_id = kv.1 ∧ kv.1 ∈ f ∧
      ∃ fi, get_library_item s kv.1 = some fi ∧ "KEEP" ∉ fi.media.tags) :
    ∀ kv ∈ scanBookItem s f m iid, kv.2.library_item_id = kv.1 ∧ kv.1 ∈ f ∧
      ∃ fi, get_library_item s kv.1 = some fi ∧ "KEEP" ∉ fi.media.tags := by
  unfold scanBookItem
  by_cases hin : iid ∈ f
  · rw [if_pos hin]
    cases hfi : get_library_item s iid with
    | none => exact hm
    | some fullItem =>
      dsimp only
      by_cases hk : "KEEP" ∈ fullItem.media.tags
      · rw [if_pos hk]
        exact hm
      · rw [if_neg hk]
        intro kv hkv
        rcases mem_dinsert _ _ _ _ hkv with h | h
        · exact hm kv h
        · subst h
          exact ⟨rfl, hin, fullItem, hfi, hk⟩
  · rw [if_neg hin]
    exact hm

theorem build_audiobook_map_entry_src (s : Server) (f : List String) :
    ∀ kv ∈ build_audiobook_map s f, kv.2.library_item_id = kv.1 ∧ kv.1 ∈ f ∧
      ∃ fi, get_library_item s kv.1 = some fi ∧ "KEEP" ∉ fi.media.tags := by
  unfold build_audiobook_map
  refine foldl_pred_mono
    (fun m : AMap => ∀ kv ∈ m, kv.2.library_item_id = kv.1 ∧ kv.1 ∈ f ∧
      ∃ fi, get_library_item s kv.1 = some fi ∧ "KEEP" ∉ fi.media.tags)
    _ ?_ _ _ ?_
  · intro m lib hm
    exact foldl_pred_mono
      (fun m2 : AMap => ∀ kv ∈ m2, kv.2.library_item_id = kv.1 ∧ kv.1 ∈ f ∧
        ∃ fi, get_library_item s kv.1 = some fi ∧ "KEEP" ∉ fi.media.tags)
      (scanBookItem s f)
      (fun m2 iid hm2 => scanBookItem_entry_pres s f iid m2 hm2)
      (get_library_items s lib.id) m hm
  · intro kv h
    cases h

theorem addEpisode_lookup_mono (iid pt : String) (k : String) (m : EMap) (ep : Episode)
    (h : (dlookup m k).isSome = true) :
    (dlookup (addEpisode iid pt m ep) k).isSome = true := by
  unfold addEpisode
  by_cases ho : otruthy ep.id = true
  · rw [if_pos ho]
    exact dlookup_isSome_dinsert _ _ _ _ h
  · rw [if_neg ho]
    exact h

theorem scanPodcastItem_lookup_mono (s : Server) (iid k : String) (m : EMap)
    (h : (dlookup m k).isSome = true) :
    (dlookup (scanPodcastItem s m iid) k).isSome = true := by
  unfold scanPodcastItem
  cases hfi : get_library_item s iid with
  | none => exact h
  | some fullItem =>
    dsimp only
    by_cases hk : "KEEP" ∈ fullItem.media.tags
    · rw [if_pos hk]
      exact h
    · rw [if_neg hk]
      exact foldl_pred_mono (fun m2 => (dlookup m2 k).isSome = true) _
        (fun m2 ep hm2 => addEpisode_lookup_mono iid _ k m2 ep hm2)
        fullItem.media.episodes m h

theorem build_episode_map_covers (s : Server) (lib : Library) (iid : String) (fi : FullItem)
    (ep : Episode)
    (hlib : lib ∈ s.libraries) (hpod : lib.mediaType = "podcast")
    (hiid : iid ∈ get_library_items s lib.id)
    (hfi : get_library_item s iid = some fi) (hkeep : "KEEP" ∉ fi.media.tags)
    (hep : ep ∈ fi.media.episodes) (hid : otruthy ep.id = true) :
    (dlookup (build_episode_map s) (ep.id.getD "")).isSome = true := by
  unfold build_episode_map
  have hmem : lib ∈ get_podcast_libraries s := by
    simp only [get_podcast_libraries, get_libraries, List.mem_filter]
    exact ⟨hlib, by simp [hpod]⟩
  refine foldl_pred_mem (fun m => (dlookup m (ep.id.getD "")).isSome = true) _
    ?_ hmem ?_ _
  · intro m lib2 hm
    exact foldl_pred_mono (fun m2 => (dlookup m2 (ep.id.getD "")).isSome = true) _
      (fun m2 iid2 hm2 => scanPodcastItem_lookup_mono s iid2 _ m2 hm2)
      (get_library_items s lib2.id) m hm
  · intro m
    refine foldl_pred_mem (fun m2 => (dlookup m2 (ep.id.getD "")).isSome = true) _
      (fun m2 iid2 hm2 => scanPodcastItem_lookup_mono s iid2 _ m2 hm2) hiid ?_ m
    intro m2
    unfold scanPodcastItem
    rw [hfi]
    dsimp only
    rw [if_neg hkeep]
    refine foldl_pred_mem (fun m3 => (dlookup m3 (ep.id.getD "")).isSome = true) _
      (fun m3 ep2 hm3 => addEpisode_lookup_mono iid _ _ m3 ep2 hm3) hep ?_ m2
    intro m3
    unfold addEpisode
    rw [if_pos hid, dlookup_dinsert_self]
    rfl

theorem scanBookItem_lookup_mono (s : Server) (f : List String) (iid k : String) (m : AMap)
    (h : (dlookup m k).isSome = true) :
    (dlookup (scanBookItem s f m iid) k).isSome = true := by
  unfold scanBookItem
  by_cases hin : iid ∈ f
  · rw [if_pos hin]
    cases hfi : get_library_item s iid with
    | none => exact h
    | some fullItem =>
      dsimp only
      by_cases hk : "KEEP" ∈ fullItem.media.tags
      · rw [if_pos hk]
        exact h
      · rw [if_neg hk]
        exact dlookup_isSome_dinsert _ _ _ _ h
  · rw [if_neg hin]
    exact h

theorem build_audiobook_map_covers (s : Server) (blib : Library) (bid : String)
    (bfi : FullItem) (f : List String)
    (hlib : blib ∈ s.libraries) (hbook : blib.mediaType = "book")
    (hbid : bid ∈ get_library_items s blib.id) (hf : bid ∈ f)
    (hfi : get_library_item s bid = some bfi) (hkeep : "KEEP" ∉ bfi.media.tags) :
    (dlookup (build_audiobook_map s f) bid).isSome = true := by
  unfold build_audiobook_map
  have hmem : blib ∈ get_book_libraries s := by
    simp only [get_book_libraries, get_libraries, List.mem_filter]
    exact ⟨hlib, by simp [hbook]⟩
  refine foldl_pred_mem (fun m => (dlookup m bid).isSome = true) _ ?_ hmem ?_ _
  · intro m lib2 hm
    exact foldl_pred_mono (fun m2 => (dlookup m2 bid).isSome = true) _
      (fun m2 iid2 hm2 => scanBookItem_lookup_mono s f iid2 _ m2 hm2)
      (get_library_items s lib2.id) m hm
  · intro m
    refine foldl_pred_mem (fun m2 => (dlookup m2 bid).isSome = true) _
      (fun m2 iid2 hm2 => scanBookItem_lookup_mono s f iid2 _ m2 hm2) hbid ?_ m
    intro m2
    unfold scanBookItem
    rw [if_pos hf, hfi]
    dsimp only
    rw [if_neg hkeep, dlookup_dinsert_self]
    rfl

theorem deleteItemsLoop_requests_src (cands : AMap) (d : Bool) (fs : List Request)
    (r : Request) (h : r ∈ (deleteItemsLoop cands d fs).1) :
    ∃ kv ∈ cands, r = delete_library_item kv.2.library_item_id true := by
  induction cands with
  | nil => simp [deleteItemsLoop] at h
  | cons kv rest ih =>
    simp only [deleteItemsLoop] at h
    cases d with
    | true =>
      simp only [if_true] at h
      rcases ih h with ⟨kv2, hkv2, hr⟩
      exact ⟨kv2, List.mem_cons_of_mem _ hkv2, hr⟩
    | false =>
      simp only [Bool.false_eq_true, if_false] at h
      by_cases hf : delete_library_item kv.2.library_item_id true ∈ fs
      · simp only [hf, if_true] at h
        rcases List.mem_cons.mp h with rfl | h2
        · exact ⟨kv, List.mem_cons_self _ _, rfl⟩
        · rcases ih h2 with ⟨kv2, hkv2, hr⟩
          exact ⟨kv2, List.mem_cons_of_mem _ hkv2, hr⟩
      · simp only [hf, if_false] at h
        rcases List.mem_cons.mp h with rfl | h2
        · exact ⟨kv, List.mem_cons_self _ _, rfl⟩
        · rcases ih h2 with ⟨kv2, hkv2, hr⟩
          exact ⟨kv2, List.mem_cons_of_mem _ hkv2, hr⟩

theorem v4SelectEpisodes_mem_lookup (f : List String) (m : EMap) (mA : Option Int)
    (now : Int) (c : EpCand) (h : c ∈ (v4SelectEpisodes f m mA now).1) :
    dlookup m c.episode_id = some c.info := by
  cases mA with
  | none => exact ((v4SelectEpisodes_mem_none f m now c).mp h).2
  | some A => exact ((v4SelectEpisodes_mem_some f m A now c).mp h).2.1

theorem v4FilterAudiobooks_sub (m : AMap) (mA : Option Int) (now : Int)
    (kv : String × AbInfo) (h : kv ∈ (v4FilterAudiobooks m mA now).1) : kv ∈ m := by
  cases mA with
  | none => exact h
  | some A => exact ((v4FilterAudiobooksGo_mem A now m kv).mp h).1

theorem v4PodcastPhase_mem (s : Server) (p : List Progress) (mt : MediaType)
    (mA : Option Int) (now : Int) (c : EpCand)
    (h : c ∈ (v4PodcastPhase s p mt mA now).1) :
    dlookup (build_episode_map s) c.episode_id = some c.info := by
  unfold v4PodcastPhase at h
  dsimp only at h
  split at h
  · exact v4SelectEpisodes_mem_lookup _ _ _ _ _ h
  · cases h

theorem v4AudiobookPhase_mem (s : Server) (p : List Progress) (mt : MediaType)
    (mA : Option Int) (now : Int) (kv : String × AbInfo)
    (h : kv ∈ (v4AudiobookPhase s p mt mA now).1) :
    kv ∈ build_audiobook_map s (get_finished_media p).2 := by
  unfold v4AudiobookPhase at h
  dsimp only at h
  split at h
  · exact v4FilterAudiobooks_sub _ _ _ _ h
  · cases h

/-! Concrete fixtures used by the witness theorems. -/

/-- A podcast episode present on the witness server. -/
def wEp1 : Episode := ⟨some "e1", some "Ep One", some 1000⟩

/-- A second episode of the same podcast, with no `addedAt`. -/
def wEp2 : Episode := ⟨some "e2", some "Ep Two", none⟩

/-- Media object of the untagged witness podcast. -/
def wPodMedia : Media := ⟨some "Podcast A", none, [], [wEp1, wEp2]⟩

/-- The untagged witness podcast item. -/
def wPodItem : FullItem := ⟨wPodMedia, some 500⟩

/-- Media object of a KEEP-tagged podcast. -/
def wKeepMedia : Media := ⟨some "Keep Pod", none, ["KEEP"], [⟨some "e3", some "Ep Three", some 100⟩]⟩

/-- The KEEP-tagged witness podcast item. -/
def wKeepItem : FullItem := ⟨wKeepMedia, some 100⟩

/-- Media object of the untagged witness audiobook. -/
def wBookMedia : Media := ⟨some "Book B", some "Author", [], []⟩

/-- The untagged witness audiobook item. -/
def wBookItem : FullItem := ⟨wBookMedia, some 2000⟩

/-- Media object of a KEEP-tagged audiobook. -/
def wKeepBookMedia : Media := ⟨some "Keep Book", some "Author", ["KEEP"], []⟩

/-- The KEEP-tagged witness audiobook item. -/
def wKeepBookItem : FullItem := ⟨wKeepBookMedia, some 100⟩

/-- A small server with one podcast library (one plain and one KEEP-tagged
podcast) and one book library (one plain and one KEEP-tagged audiobook). -/
def wServer : Server :=
  ⟨[⟨"libP", "Podcasts", "podcast", ["p1", "pk"]⟩,
    ⟨"libB", "Books", "book", ["b1", "bk"]⟩],
   [("p1", wPodItem), ("pk", wKeepItem), ("b1", wBookItem), ("bk", wKeepBookItem)]⟩

/-- Progress data marking finished: episode e1, episode e3 (of the KEEP
podcast), audiobook b1, the KEEP audiobook bk; plus one unfinished entry. -/
def wProgress : List Progress :=
  [⟨true, some "e1", some "p1"⟩,
   ⟨true, some "e3", some "pk"⟩,
   ⟨true, none, some "b1"⟩,
   ⟨true, none, some "bk"⟩,
   ⟨false, some "e2", none⟩]

/-- Episode-map entry fixture for the age-filter witnesses. -/
def wInfoC3 : EpInfo := ⟨"p1", "T", "E", some 5⟩

/-- Audiobook-map entry fixture for the age-filter witnesses. -/
def wAbC3 : AbInfo := ⟨"b1", "B", "A", some 4⟩

/-- Episode-map entry with no `addedAt`. -/
def wInfoC9 : EpInfo := ⟨"p1", "T", "E", none⟩

/-- Audiobook-map entry with `addedAt` equal to zero. -/
def wAbC9 : AbInfo := ⟨"b1", "B", "A", some 0⟩

/-! The claims. -/

/-- C1: for every run, a catalog item whose media tags contain "KEEP" never
yields an entry of the eligible-item lookups built by `build_episode_map` /
`build_audiobook_map` (no episode-map entry points at it, and it has no
audiobook-map entry), so no deletion request of the run targets that item
or any of its episodes. -/
theorem claim_C1_keep_never_deleted (s : Server) (p : List Progress) (mt : MediaType)
    (mA : Option Int) (now : Int) (d : Bool) (fs : List Request) (f : List String)
    (iid : String) (fi : FullItem)
    (hfi : get_library_item s iid = some fi) (hkeep : "KEEP" ∈ fi.media.tags) :
    ((build_episode_map s).all (fun kv => !(kv.2.library_item_id == iid))) = true ∧
    dlookup (build_audiobook_map s f) iid = none ∧
    ((runV4 s p mt mA now d fs).requests.all (fun r => !(targetsItem r iid))) = true := by
  refine ⟨?_, ?_, ?_⟩
  · rw [List.all_eq_true]
    intro kv hkv
    rcases build_episode_map_entry_src s kv hkv with ⟨fi2, hfi2, hk2⟩
    simp only [Bool.not_eq_true', beq_eq_false_iff_ne, ne_eq]
    intro heq
    rw [heq, hfi] at hfi2
    cases hfi2
    exact hk2 hkeep
  · cases hl : dlookup (build_audiobook_map s f) iid with
    | none => rfl
    | some v =>
      rcases build_audiobook_map_entry_src s f (iid, v) (dlookup_mem _ _ _ hl) with
        ⟨-, -, fi2, hfi2, hk2⟩
      rw [hfi] at hfi2
      cases hfi2
      exact absurd hkeep hk2
  · rw [List.all_eq_true]
    intro r hr
    unfold runV4 at hr
    dsimp only at hr
    rcases List.mem_append.mp hr with hr2 | hr2
    · rcases deleteEpisodesLoop_requests_src _ _ _ _ hr2 with ⟨c, hc, rfl⟩
      have hlook := v4PodcastPhase_mem s p mt mA now c hc
      rcases build_episode_map_entry_src s (c.episode_id, c.info) (dlookup_mem _ _ _ hlook)
        with ⟨fi2, hfi2, hk2⟩
      simp only [targetsItem, delete_episode, Bool.not_eq_true', beq_eq_false_iff_ne, ne_eq]
      intro heq
      rw [heq, hfi] at hfi2
      cases hfi2
      exact hk2 hkeep
    · rcases deleteItemsLoop_requests_src _ _ _ _ hr2 with ⟨kv, hkv, rfl⟩
      have hm := v4AudiobookPhase_mem s p mt mA now kv hkv
      rcases build_audiobook_map_entry_src s _ kv hm with ⟨hid2, -, fi2, hfi2, hk2⟩
      simp only [targetsItem, delete_library_item, Bool.not_eq_true', beq_eq_false_iff_ne,
        ne_eq]
      intro heq
      rw [hid2.symm.trans heq, hfi] at hfi2
      cases hfi2
      exact hk2 hkeep

/-- Witness for C1: on the concrete server, the KEEP-tagged audiobook "bk"
satisfies the hypotheses and no structure or request of the run names it. -/
theorem claim_C1_witness :
    get_library_item wServer "bk" = some wKeepBookItem ∧
    "KEEP" ∈ wKeepBookItem.media.tags ∧
    (((build_episode_map wServer).all (fun kv => !(kv.2.library_item_id == "bk"))) = true ∧
      dlookup (build_audiobook_map wServer (get_finished_media wProgress).2) "bk" = none ∧
      ((runV4 wServer wProgress MediaType.EVERYTHING none 0 false []).requests.all
        (fun r => !(targetsItem r "bk"))) = true) :=
  ⟨by decide, by decide,
    claim_C1_keep_never_deleted wServer wProgress MediaType.EVERYTHING none 0 false []
      (get_finished_media wProgress).2 "bk" wKeepBookItem (by decide) (by decide)⟩

/-- C2: with no age filtering in play, the episode deletion candidate list
of `main` holds exactly the finished identifiers that are keys of the
episode map, in v4 and in v2 / v3 alike: a candidate is both finished and
present in the map, and every such identifier is a candidate. -/
theorem claim_C2_intersection_candidates (f : List String) (m : EMap) (m3 : EMap3)
    (now : Int) (c : EpCand) (c3 : EpCand3) :
    (c ∈ (v4SelectEpisodes f m none now).1 ↔
      c.episode_id ∈ f ∧ dlookup m c.episode_id = some c.info) ∧
    (c3 ∈ v23SelectEpisodes f m3 ↔
      c3.episode_id ∈ f ∧ dlookup m3 c3.episode_id = some c3.info) :=
  ⟨v4SelectEpisodes_mem_none f m now c, v23SelectEpisodes_mem f m3 c3⟩

/-- C3: with a minimum age configured, an intersection item with a present,
nonzero `addedAt` is selected for deletion exactly when `now` minus
`addedAt` is at least the minimum age, and the skipped-too-recent counter
counts exactly the intersection items that fail the age test — for
episodes and audiobooks alike. -/
theorem claim_C3_age_filter (A now : Int) (f : List String) (m : EMap)
    (eid : String) (i : EpInfo) (a : Nat)
    (am : AMap) (iid : String) (bi : AbInfo) (b : Nat)
    (h1 : eid ∈ f) (h2 : dlookup m eid = some i) (h3 : i.added_at = some a) (h4 : a ≠ 0)
    (h5 : (iid, bi) ∈ am) (h6 : bi.added_at = some b) (h7 : b ≠ 0) :
    ((EpCand.mk eid i) ∈ (v4SelectEpisodes f m (some A) now).1 ↔ A ≤ now - (a : Int)) ∧
    (v4SelectEpisodes f m (some A) now).2 =
      f.countP (fun e =>
        match dlookup m e with
        | some j => !is_old_enough j.added_at now A
        | none => false) ∧
    ((iid, bi) ∈ (v4FilterAudiobooks am (some A) now).1 ↔ A ≤ now - (b : Int)) ∧
    (v4FilterAudiobooks am (some A) now).2 =
      am.countP (fun kv => !is_old_enough kv.2.added_at now A) := by
  refine ⟨?_, v4SelectEpisodes_count_some f m A now, ?_, ?_⟩
  · rw [v4SelectEpisodes_mem_some]
    constructor
    · rintro ⟨-, -, hio⟩
      rw [h3] at hio
      unfold is_old_enough at hio
      dsimp only at hio
      rw [if_neg h4] at hio
      exact of_decide_eq_true hio
    · intro hage
      refine ⟨h1, h2, ?_⟩
      rw [h3]
      unfold is_old_enough
      dsimp only
      rw [if_neg h4]
      exact decide_eq_true hage
  · unfold v4FilterAudiobooks
    rw [v4FilterAudiobooksGo_mem]
    constructor
    · rintro ⟨-, hio⟩
      rw [h6] at hio
      unfold is_old_enough at hio
      dsimp only at hio
      rw [if_neg h7] at hio
      exact of_decide_eq_true hio
    · intro hage
      refine ⟨h5, ?_⟩
      rw [h6]
      unfold is_old_enough
      dsimp only
      rw [if_neg h7]
      exact decide_eq_true hage
  · unfold v4FilterAudiobooks
    exact v4FilterAudiobooksGo_count A now am

/-- Witness for C3 at concrete inputs: minimum age 2 ms, now 10 ms, one
episode added at 5 ms and one audiobook added at 4 ms. -/
theorem claim_C3_witness :
    ("e1" ∈ ["e1"]) ∧ dlookup [("e1", wInfoC3)] "e1" = some wInfoC3 ∧
    wInfoC3.added_at = some 5 ∧ (5 : Nat) ≠ 0 ∧
    ("b1", wAbC3) ∈ [("b1", wAbC3)] ∧ wAbC3.added_at = some 4 ∧ (4 : Nat) ≠ 0 ∧
    (((EpCand.mk "e1" wInfoC3) ∈ (v4SelectEpisodes ["e1"] [("e1", wInfoC3)] (some 2) 10).1 ↔
        (2 : Int) ≤ 10 - ((5 : Nat) : Int)) ∧
      (v4SelectEpisodes ["e1"] [("e1", wInfoC3)] (some 2) 10).2 =
        (["e1"] : List String).countP (fun e =>
          match dlookup [("e1", wInfoC3)] e with
          | some j => !is_old_enough j.added_at 10 2
          | none => false) ∧
      (("b1", wAbC3) ∈ (v4FilterAudiobooks [("b1", wAbC3)] (some 2) 10).1 ↔
        (2 : Int) ≤ 10 - ((4 : Nat) : Int)) ∧
      (v4FilterAudiobooks [("b1", wAbC3)] (some 2) 10).2 =
        ([("b1", wAbC3)] : AMap).countP (fun kv => !is_old_enough kv.2.added_at 10 2)) :=
  ⟨by decide, by decide, by decide, by decide, by decide, by decide, by decide,
    claim_C3_age_filter 2 10 ["e1"] [("e1", wInfoC3)] "e1" wInfoC3 5
      [("b1", wAbC3)] "b1" wAbC3 4
      (by decide) (by decide) (by decide) (by decide) (by decide) (by decide) (by decide)⟩

/-- C4: deletions are applied with per-item error isolation: whatever the
set of failing requests, every candidate is attempted (in non-dry-run mode
the issued request list is exactly the candidate list mapped to requests),
failures increment the failed counter, successes the deleted counter, and
the two final counters sum to the number of candidates attempted. -/
theorem claim_C4_error_isolation (s : Server) (p : List Progress) (mt : MediaType)
    (mA : Option Int) (now : Int) (d : Bool) (fs : List Request) :
    (runV4 s p mt mA now d fs).total_deleted + (runV4 s p mt mA now d fs).total_failed =
      (v4PodcastPhase s p mt mA now).1.length + (v4AudiobookPhase s p mt mA now).1.length ∧
    (runV4 s p mt mA now false fs).requests =
      (v4PodcastPhase s p mt mA now).1.map
        (fun c => delete_episode c.info.library_item_id c.episode_id true) ++
      (v4AudiobookPhase s p mt mA now).1.map
        (fun kv => delete_library_item kv.2.library_item_id true) ∧
    (runV4 s p mt mA now false fs).total_deleted =
      (v4PodcastPhase s p mt mA now).1.countP
        (fun c => !(decide (delete_episode c.info.library_item_id c.episode_id true ∈ fs))) +
      (v4AudiobookPhase s p mt mA now).1.countP
        (fun kv => !(decide (delete_library_item kv.2.library_item_id true ∈ fs))) ∧
    (runV4 s p mt mA now false fs).total_failed =
      (v4PodcastPhase s p mt mA now).1.countP
        (fun c => decide (delete_episode c.info.library_item_id c.episode_id true ∈ fs)) +
      (v4AudiobookPhase s p mt mA now).1.countP
        (fun kv => decide (delete_library_item kv.2.library_item_id true ∈ fs)) := by
  unfold runV4
  dsimp only
  refine ⟨?_, ?_, ?_, ?_⟩
  · have h1 := deleteEpisodesLoop_sum (v4PodcastPhase s p mt mA now).1 d fs
    have h2 := deleteItemsLoop_sum (v4AudiobookPhase s p mt mA now).1 d fs
    omega
  · rw [deleteEpisodesLoop_requests, deleteItemsLoop_requests]
  · rw [(deleteEpisodesLoop_counts _ fs).1, (deleteItemsLoop_counts _ fs).1]
  · rw [(deleteEpisodesLoop_counts _ fs).2, (deleteItemsLoop_counts _ fs).2]

/-- C5: the finished-identifier collection returns exactly the episode ids
of finished entries with a truthy `episodeId`, and the library-item ids of
finished entries with a falsy `episodeId` and a truthy `libraryItemId`; an
entry with both ids feeds only the episode set, unfinished entries feed
neither, and the v2 collector equals the episode component of the v3 / v4
collector. -/
theorem claim_C5_finished_identifier_sets (ps : List Progress) (x : String) :
    (x ∈ (get_finished_media ps).1 ↔
      ∃ p ∈ ps, p.isFinished = true ∧ p.episodeId = some x ∧ x ≠ "") ∧
    (x ∈ (get_finished_media ps).2 ↔
      ∃ p ∈ ps, p.isFinished = true ∧ otruthy p.episodeId = false ∧
        p.libraryItemId = some x ∧ x ≠ "") ∧
    get_finished_episode_ids ps = (get_finished_media ps).1 :=
  ⟨get_finished_media_fst_mem ps x, get_finished_media_snd_mem ps x,
    get_finished_episode_ids_eq ps⟩

/-- C6: on the same server state and progress data, v3 with MEDIA_TYPE
PODCASTS issues exactly the deletion requests of v2, and v4 with no AGE
configured issues exactly the deletion requests of v3 with the same
MEDIA_TYPE. -/
theorem claim_C6_version_refinement (s : Server) (p : List Progress) (mt : MediaType)
    (now : Int) (d : Bool) (fs : List Request) :
    (runV3 s p MediaType.PODCASTS d fs).requests = (runV2 s p d fs).requests ∧
    (runV4 s p mt none now d fs).requests = (runV3 s p mt d fs).requests :=
  ⟨by rw [runV3_podcasts_eq_runV2], by rw [runV4_none_eq_runV3]⟩

/-- C7: every deletion request a v4 run issues carries the hard-delete
parameter. -/
theorem claim_C7_hard_delete (s : Server) (p : List Progress) (mt : MediaType)
    (mA : Option Int) (now : Int) (d : Bool) (fs : List Request) (r : Request)
    (hr : r ∈ (runV4 s p mt mA now d fs).requests) : r.hard = true := by
  unfold runV4 at hr
  dsimp only at hr
  rcases List.mem_append.mp hr with h | h
  · rcases deleteEpisodesLoop_requests_src _ _ _ _ h with ⟨c, -, rfl⟩
    rfl
  · rcases deleteItemsLoop_requests_src _ _ _ _ h with ⟨kv, -, rfl⟩
    rfl

/-- Witness for C7: the first request of the concrete run carries the
hard-delete flag. -/
theorem claim_C7_witness :
    Request.deleteEpisode "p1" "e1" true ∈
      (runV4 wServer wProgress MediaType.EVERYTHING none 0 false []).requests ∧
    (Request.deleteEpisode "p1" "e1" true).hard = true :=
  ⟨by decide,
    claim_C7_hard_delete wServer wProgress MediaType.EVERYTHING none 0 false []
      (Request.deleteEpisode "p1" "e1" true) (by decide)⟩

/-- C8: the catalog scan covers the whole per-library item listing the
server reports (the scripts request it without pagination parameters, so
`results` is the complete listing): every episode with a truthy id of
every fetchable, non-KEEP podcast in any podcast library's listing is a
key of the episode map, and every finished, fetchable, non-KEEP audiobook
in any book library's listing is a key of the audiobook map. -/
theorem claim_C8_listing_coverage (s : Server) (lib blib : Library) (iid bid : String)
    (fi bfi : FullItem) (ep : Episode) (f : List String)
    (h1 : lib ∈ s.libraries) (h2 : lib.mediaType = "podcast")
    (h3 : iid ∈ get_library_items s lib.id)
    (h4 : get_library_item s iid = some fi) (h5 : "KEEP" ∉ fi.media.tags)
    (h6 : ep ∈ fi.media.episodes) (h7 : otruthy ep.id = true)
    (h8 : blib ∈ s.libraries) (h9 : blib.mediaType = "book")
    (h10 : bid ∈ get_library_items s blib.id) (h11 : bid ∈ f)
    (h12 : get_library_item s bid = some bfi) (h13 : "KEEP" ∉ bfi.media.tags) :
    (dlookup (build_episode_map s) (ep.id.getD "")).isSome = true ∧
    (dlookup (build_audiobook_map s f) bid).isSome = true :=
  ⟨build_episode_map_covers s lib iid fi ep h1 h2 h3 h4 h5 h6 h7,
    build_audiobook_map_covers s blib bid bfi f h8 h9 h10 h11 h12 h13⟩

/-- Witness for C8 on the concrete server: episode e1 of podcast p1 and
finished audiobook b1 are both covered by the lookups. -/
theorem claim_C8_witness :
    ((⟨"libP", "Podcasts", "podcast", ["p1", "pk"]⟩ : Library) ∈ wServer.libraries) ∧
    ("p1" ∈ get_library_items wServer "libP") ∧
    (wEp1 ∈ wPodItem.media.episodes) ∧
    ("b1" ∈ (["b1", "bk"] : List String)) ∧
    (dlookup (build_episode_map wServer) (wEp1.id.getD "")).isSome = true ∧
    (dlookup (build_audiobook_map wServer ["b1", "bk"]) "b1").isSome = true := by
  refine ⟨by decide, by decide, by decide, by decide, ?_, ?_⟩
  · exact (claim_C8_listing_coverage wServer
      ⟨"libP", "Podcasts", "podcast", ["p1", "pk"]⟩
      ⟨"libB", "Books", "book", ["b1", "bk"]⟩ "p1" "b1" wPodItem wBookItem wEp1
      ["b1", "bk"] (by decide) (by decide) (by decide) (by decide) (by decide)
      (by decide) (by decide) (by decide) (by decide) (by decide) (by decide)
      (by decide) (by decide)).1
  · exact (claim_C8_listing_coverage wServer
      ⟨"libP", "Podcasts", "podcast", ["p1", "pk"]⟩
      ⟨"libB", "Books", "book", ["b1", "bk"]⟩ "p1" "b1" wPodItem wBookItem wEp1
      ["b1", "bk"] (by decide) (by decide) (by decide) (by decide) (by decide)
      (by decide) (by decide) (by decide) (by decide) (by decide) (by decide)
      (by decide) (by decide)).2

/-- C9: a falsy `addedAt` (absent or zero) counts as old enough whatever
the configured minimum age, so such an intersection item is selected for
deletion rather than skipped. -/
theorem claim_C9_falsy_added_at (A now : Int) (f : List String) (m : EMap)
    (eid : String) (i : EpInfo) (am : AMap) (iid : String) (bi : AbInfo)
    (h1 : eid ∈ f) (h2 : dlookup m eid = some i)
    (h3 : i.added_at = none ∨ i.added_at = some 0)
    (h4 : (iid, bi) ∈ am) (h5 : bi.added_at = none ∨ bi.added_at = some 0) :
    is_old_enough none now A = true ∧ is_old_enough (some 0) now A = true ∧
    (EpCand.mk eid i) ∈ (v4SelectEpisodes f m (some A) now).1 ∧
    (iid, bi) ∈ (v4FilterAudiobooks am (some A) now).1 := by
  refine ⟨rfl, rfl, ?_, ?_⟩
  · rw [v4SelectEpisodes_mem_some]
    refine ⟨h1, h2, ?_⟩
    rcases h3 with h3 | h3 <;> rw [h3] <;> rfl
  · unfold v4FilterAudiobooks
    rw [v4FilterAudiobooksGo_mem]
    refine ⟨h4, ?_⟩
    rcases h5 with h5 | h5 <;> rw [h5] <;> rfl

/-- Witness for C9: an episode with no `addedAt` and an audiobook with
`addedAt` zero both pass a configured age filter. -/
theorem claim_C9_witness :
    ("e1" ∈ ["e1"]) ∧ dlookup [("e1", wInfoC9)] "e1" = some wInfoC9 ∧
    (wInfoC9.added_at = none ∨ wInfoC9.added_at = some 0) ∧
    ("b1", wAbC9) ∈ [("b1", wAbC9)] ∧
    (wAbC9.added_at = none ∨ wAbC9.added_at = some 0) ∧
    (is_old_enough none 10 2 = true ∧ is_old_enough (some 0) 10 2 = true ∧
      (EpCand.mk "e1" wInfoC9) ∈ (v4SelectEpisodes ["e1"] [("e1", wInfoC9)] (some 2) 10).1 ∧
      ("b1", wAbC9) ∈ (v4FilterAudiobooks [("b1", wAbC9)] (some 2) 10).1) :=
  ⟨by decide, by decide, by decide, by decide, by decide,
    claim_C9_falsy_added_at 2 10 ["e1"] [("e1", wInfoC9)] "e1" wInfoC9
      [("b1", wAbC9)] "b1" wAbC9
      (by decide) (by decide) (by decide) (by decide) (by decide)⟩

/-- C10: a dry run issues no requests at all and fails nothing, yet its
deleted counter equals the number of candidates, which is exactly the
number of requests the corresponding real run would issue. -/
theorem claim_C10_dry_run (s : Server) (p : List Progress) (mt : MediaType)
    (mA : Option Int) (now : Int) (fs fs2 : List Request) :
    (runV4 s p mt mA now true fs).requests = [] ∧
    (runV4 s p mt mA now true fs).total_failed = 0 ∧
    (runV4 s p mt mA now true fs).total_deleted =
      (v4PodcastPhase s p mt mA now).1.length + (v4AudiobookPhase s p mt mA now).1.length ∧
    (runV4 s p mt mA now true fs).total_deleted =
      ((runV4 s p mt mA now false fs2).requests).length := by
  unfold runV4
  dsimp only
  rw [deleteEpisodesLoop_dry, deleteItemsLoop_dry, deleteEpisodesLoop_requests,
    deleteItemsLoop_requests]
  refine ⟨rfl, rfl, rfl, ?_⟩
  simp
